import Mathlib

/-!
# Verification of the wt-go worktree manager core

Shallow embedding of the Go sources of `wt-go` (package `worktree` in
`internal/worktree/worktree.go` and the VCS gateway `git.Exec` from
`cmd/wtgo/main.go`), together with theorems settling the specification's
claims.

External effects (the `git` subprocess, `os.Getwd`, the state file,
`filepath.Abs`) are modelled by an explicit environment `Env`; each
controller operation returns the ordered trace of `git` invocations it
issued (each invocation its argument list) together with its outcome and
the resulting state-file contents.

Go string primitives (`strings.Split`, `strings.TrimSpace`,
`strings.HasPrefix`, `strings.TrimPrefix`, `strings.Join`,
`strings.ReplaceAll`) are given character-level structural definitions so
that every definition evaluates inside the kernel.
-/

namespace WtGo

/-- Go `strings.Split(s, "\n")` restricted to the single-character
separator the program uses: cons `c` onto the first line of an already
split tail. -/
def consHead (c : Char) : List String → List String
  | [] => [String.mk [c]]
  | s :: rest => String.mk (c :: s.data) :: rest

/-- Character-level worker for `strings.Split(s, "\n")`. -/
def splitLinesCh : List Char → List String
  | [] => [""]
  | c :: cs => if c = '\n' then "" :: splitLinesCh cs else consHead c (splitLinesCh cs)

/-- Go `strings.Split(output, "\n")`. -/
def splitLines (s : String) : List String :=
  splitLinesCh s.data

/-- Go `strings.TrimSpace` (ASCII whitespace; the listings and paths the
program handles contain no exotic Unicode spacing). -/
def strTrim (s : String) : String :=
  String.mk (((s.data.dropWhile Char.isWhitespace).reverse.dropWhile Char.isWhitespace).reverse)

/-- Go `strings.HasPrefix(s, pre)`. -/
def strHasPrefix (s pre : String) : Bool :=
  pre.data.isPrefixOf s.data

/-- Go `strings.TrimPrefix(s, pre)`: drops `pre` when it is a prefix of
`s`, otherwise returns `s` unchanged. -/
def trimPrefix (s pre : String) : String :=
  if strHasPrefix s pre then String.mk (s.data.drop pre.data.length) else s

/-- Go `strings.Join(args, " ")`. -/
def joinArgs : List String → String
  | [] => ""
  | [a] => a
  | a :: b :: rest => a ++ " " ++ joinArgs (b :: rest)

/-- Go `strings.ReplaceAll(s, "/", "_")`, the branch-name sanitiser. -/
def sanitizeBranch (s : String) : String :=
  String.mk (s.data.map fun c => if c = '/' then '_' else c)

/-- Strips the `refs/heads/` namespace from a fully qualified branch ref,
as `strings.TrimPrefix(parts[1], "refs/heads/")` does in the Go source. -/
def stripRefsHeads (s : String) : String :=
  trimPrefix s "refs/heads/"

/-- The loop of Go `FindWorktreePathForBranch`, operating on the list of
lines produced by `strings.Split(output, "\n")`.  State `currentPath` /
`currentBranch` is threaded exactly as in the source: a blank (after trim)
line flushes the current block, returning its path when the block has a
path and its branch equals `branchName`; `worktree ` lines set the path
(`strings.TrimPrefix(line, "worktree ")`, the trimmed line's first nine
characters dropped); `branch ` lines set the branch via
`strings.SplitN(line, " ", 2)`, whose second part is the trimmed line with
its first seven characters (`branch `) dropped, then `refs/heads/`
stripped; the end of input flushes the final block. -/
def findAux (branchName : String) : List String → String → String → String
  | [], currentPath, currentBranch =>
    if currentPath ≠ "" ∧ currentBranch = branchName then currentPath else ""
  | l :: rest, currentPath, currentBranch =>
    let line := strTrim l
    if line = "" then
      if currentPath ≠ "" ∧ currentBranch = branchName then currentPath
      else findAux branchName rest "" ""
    else if strHasPrefix line "worktree " then
      findAux branchName rest (String.mk (line.data.drop 9)) currentBranch
    else if strHasPrefix line "branch " then
      findAux branchName rest currentPath (stripRefsHeads (String.mk (line.data.drop 7)))
    else
      findAux branchName rest currentPath currentBranch

/-- Pure core of Go `FindWorktreePathForBranch`: parses the porcelain
worktree listing `output` and returns the path recorded for `branchName`,
or `""` when absent. -/
def findPathInListing (branchName output : String) : String :=
  findAux branchName (splitLines output) "" ""

/-- The loop of Go `ListWorktrees`: scans the lines for `branch ` prefixed
lines, strips the ref namespace, and appends each nonempty branch name to
`acc` the first time it is seen (the Go code keeps a `seenBranches` set
alongside the ordered slice; membership in `acc` is the same test). -/
def listBranchesAux : List String → List String → List String
  | [], acc => acc
  | l :: rest, acc =>
    let line := strTrim l
    if strHasPrefix line "branch " then
      let branchRef := stripRefsHeads (String.mk (line.data.drop 7))
      if branchRef ≠ "" ∧ branchRef ∉ acc then
        listBranchesAux rest (acc ++ [branchRef])
      else
        listBranchesAux rest acc
    else
      listBranchesAux rest acc

/-- Pure core of Go `ListWorktrees`: the ordered, deduplicated branch
names extracted from the porcelain listing `output`. -/
def listWorktreeBranches (output : String) : List String :=
  listBranchesAux (splitLines output) []

/-- Result of running the external `git` process, as observed by
`git.Exec`: captured standard output, captured standard error, and `none`
for a zero exit or `some msg` for the Go error returned by `cmd.Run()`. -/
structure ProcResult where
  stdout : String
  stderr : String
  exitErr : Option String
deriving DecidableEq

/-- Go `git.Exec` (package `internal/git`, embedded in
`cmd/wtgo/main.go`): on success returns the captured standard output
alone; on failure returns the error
`git command failed: <joined args> <stderr>: <run error>` (the Go code
also returns `""` as the output value in that case, which the
`Except.error` constructor models). -/
def gitExec (args : List String) (res : ProcResult) : Except String String :=
  match res.exitErr with
  | none => Except.ok res.stdout
  | some errMsg =>
      Except.error
        ("git command failed: " ++ joinArgs args ++ " " ++ res.stderr ++ ": " ++ errMsg)

/-- Executable contiguous-substring test, used to state what an error
message "carries". -/
def listIsInfix (needle : List Char) : List Char → Bool
  | [] => needle.isPrefixOf []
  | c :: rest => needle.isPrefixOf (c :: rest) || listIsInfix needle rest

/-- `strContains hay needle` holds iff `needle` occurs contiguously in
`hay`. -/
def strContains (hay needle : String) : Bool :=
  listIsInfix needle.data hay.data

/-- Simplified `path/filepath.Dir`: everything before the last `/`
separator (adequate for the cleaned absolute repository roots `git
rev-parse --show-toplevel` emits, which is the only input the program
feeds it). -/
def pathDir (p : String) : String :=
  joinSlash ((splitSlash p).dropLast)
where
  splitSlash (s : String) : List String :=
    (s.data.foldr (fun c acc =>
      if c = '/' then [] :: acc
      else match acc with
        | [] => [[c]]
        | l :: rest => (c :: l) :: rest) [[]]).map String.mk
  joinSlash : List String → String
    | [] => ""
    | [a] => a
    | a :: b :: rest => a ++ "/" ++ joinSlash (b :: rest)

/-- Simplified `path/filepath.Base`: the component after the last `/`. -/
def pathBase (p : String) : String :=
  String.mk ((p.data.reverse.takeWhile (fun c => c ≠ '/')).reverse)

/-- Simplified `path/filepath.Join` on two nonempty cleaned components. -/
def pathJoin (a b : String) : String :=
  a ++ "/" ++ b

/-- The environment an invocation runs in: the VCS oracle (what
`git.Exec` returns for each argument list), the result of `os.Getwd`, the
current contents of the `wt.state` file (`none` = the file does not
exist; other read failures are not modelled), and the behaviour of
`filepath.Abs`.  All are fixed for the duration of one operation. -/
structure Env where
  vcs : List String → Except String String
  getwd : Except String String
  stateFile : Option String
  abs : String → Except String String

/-- Outcome of `saveCurrentWorktreeState`: trace of `git` invocations,
the returned error (if any), the resulting state-file contents, and
whether `os.WriteFile` was invoked (writes are modelled as always
succeeding). -/
structure SaveResult where
  trace : List (List String)
  result : Except String Unit
  newState : Option String
  wrote : Bool

/-- Go `saveCurrentWorktreeState`: resolve the state-file path via
`getStateFilePath` (one `git rev-parse --git-common-dir` invocation),
read the current directory, and write it to the state file unless the
stored value (trimmed) already equals it. -/
def saveCurrentWorktreeState (env : Env) : SaveResult :=
  match env.vcs ["rev-parse", "--git-common-dir"] with
  | Except.error e =>
      ⟨[["rev-parse", "--git-common-dir"]],
        Except.error ("could not get state file path: " ++ e), env.stateFile, false⟩
  | Except.ok _ =>
      match env.getwd with
      | Except.error e =>
          ⟨[["rev-parse", "--git-common-dir"]],
            Except.error ("could not get current working directory: " ++ e),
            env.stateFile, false⟩
      | Except.ok wd =>
          match env.stateFile with
          | some content =>
              if strTrim content = wd then
                ⟨[["rev-parse", "--git-common-dir"]], Except.ok (), env.stateFile, false⟩
              else
                ⟨[["rev-parse", "--git-common-dir"]], Except.ok (), some wd, true⟩
          | none =>
              ⟨[["rev-parse", "--git-common-dir"]], Except.ok (), some wd, true⟩

/-- Outcome of `SwitchToPreviousWorktree`: trace, the returned path or
error, and the resulting state-file contents. -/
structure SwitchResult where
  trace : List (List String)
  result : Except String String
  newState : Option String

/-- Go `SwitchToPreviousWorktree`: resolve the state-file path (one
`git rev-parse --git-common-dir` invocation), read and trim the stored
path, reject absence and emptiness, then save the current directory
(best-effort: a save failure only warns) and return the stored path.
Note `getStateFilePath` runs again inside the save, exactly as in Go. -/
def SwitchToPreviousWorktree (env : Env) : SwitchResult :=
  match env.vcs ["rev-parse", "--git-common-dir"] with
  | Except.error e =>
      ⟨[["rev-parse", "--git-common-dir"]],
        Except.error ("getting state file path: not a git repository or could not determine common git directory: " ++ e),
        env.stateFile⟩
  | Except.ok _ =>
      match env.stateFile with
      | none =>
          ⟨[["rev-parse", "--git-common-dir"]],
            Except.error "no previous worktree state found", env.stateFile⟩
      | some content =>
          let path := strTrim content
          if path = "" then
            ⟨[["rev-parse", "--git-common-dir"]],
              Except.error "state file is empty", env.stateFile⟩
          else
            let s := saveCurrentWorktreeState env
            ⟨[["rev-parse", "--git-common-dir"]] ++ s.trace, Except.ok path, s.newState⟩

/-- Outcome of `CreateWorktreeAndBranch`, one constructor per `return`
path of the Go function (which reports through stdout/stderr; the
path-producing outcomes record the path written to stdout). -/
inductive CreateOutcome where
  | usageError
  | listError (e : String)
  | printedExisting (path : String)
  | rootError (e : String)
  | addError (e : String)
  | created (path : String)
deriving DecidableEq

/-- Result of `CreateWorktreeAndBranch`: trace of `git` invocations in
order, outcome, and resulting state-file contents. -/
structure CreateResult where
  trace : List (List String)
  outcome : CreateOutcome
  newState : Option String

/-- Go `CreateWorktreeAndBranch`: reject an empty branch name; look the
branch up in the worktree listing; decide whether the operation is a
switch (an existing worktree whose absolute path differs from the current
directory, or no existing worktree at all) and if so save the toggle
state (best-effort); print an existing path as-is; otherwise resolve the
repository root, build `<parent>/<base>.wt/<sanitized-branch>`, check
whether the branch ref exists (`git rev-parse --verify --quiet
refs/heads/<b>`), and issue one `git worktree add`, with `-b` exactly
when the ref check failed. -/
def CreateWorktreeAndBranch (env : Env) (branchName : String) : CreateResult :=
  if branchName = "" then ⟨[], CreateOutcome.usageError, env.stateFile⟩
  else
    match env.vcs ["worktree", "list", "--porcelain"] with
    | Except.error e =>
        ⟨[["worktree", "list", "--porcelain"]],
          CreateOutcome.listError ("failed to list worktrees: " ++ e), env.stateFile⟩
    | Except.ok output =>
        let existingPath := findPathInListing branchName output
        let isSwitching :=
          if existingPath ≠ "" then
            match env.getwd with
            | Except.error _ => false
            | Except.ok wd =>
                match env.abs wd, env.abs existingPath with
                | Except.ok absWd, Except.ok absExistingPath => absWd ≠ absExistingPath
                | _, _ => false
          else true
        let s := if isSwitching then saveCurrentWorktreeState env
                 else ⟨[], Except.ok (), env.stateFile, false⟩
        let trace0 := [["worktree", "list", "--porcelain"]] ++ s.trace
        if existingPath ≠ "" then
          ⟨trace0, CreateOutcome.printedExisting existingPath, s.newState⟩
        else
          match env.vcs ["rev-parse", "--show-toplevel"] with
          | Except.error e =>
              ⟨trace0 ++ [["rev-parse", "--show-toplevel"]],
                CreateOutcome.rootError e, s.newState⟩
          | Except.ok rootOut =>
              let repoRoot := strTrim rootOut
              let parentDir := pathDir repoRoot
              let repoBaseName := pathBase repoRoot
              let worktreeCollectionDir := pathJoin parentDir (repoBaseName ++ ".wt")
              let newWorktreePath :=
                pathJoin worktreeCollectionDir (sanitizeBranch branchName)
              let verifyArgs :=
                ["rev-parse", "--verify", "--quiet", "refs/heads/" ++ branchName]
              let branchExists :=
                match env.vcs verifyArgs with
                | Except.ok _ => true
                | Except.error _ => false
              let gitArgs :=
                if branchExists then ["worktree", "add", newWorktreePath, branchName]
                else ["worktree", "add", "-b", branchName, newWorktreePath]
              match env.vcs gitArgs with
              | Except.error e =>
                  ⟨trace0 ++ [["rev-parse", "--show-toplevel"], verifyArgs, gitArgs],
                    CreateOutcome.addError e, s.newState⟩
              | Except.ok _ =>
                  ⟨trace0 ++ [["rev-parse", "--show-toplevel"], verifyArgs, gitArgs],
                    CreateOutcome.created newWorktreePath, s.newState⟩

/-- Outcome of `RemoveWorktreeAndBranch`, one constructor per `return`
path of the Go function.  `deleteErrorRestored` is the branch-deletion
failure after a successful worktree restoration (the original deletion
error is surfaced); `fatalInconsistency` is the `FATAL:` report emitted
when the restoration itself also fails. -/
inductive RemoveOutcome where
  | usageEmpty
  | usageProtected (branch : String)
  | findError (e : String)
  | notFound
  | removeError (e : String)
  | deleteErrorRestored (deleteErr : String)
  | fatalInconsistency (deleteErr recreateErr : String)
  | success
deriving DecidableEq

/-- Result of `RemoveWorktreeAndBranch`: trace of `git` invocations in
order and the outcome (the function never touches the state file). -/
structure RemoveResult where
  trace : List (List String)
  outcome : RemoveOutcome

/-- Go `RemoveWorktreeAndBranch`: reject empty and protected (`main`,
`master`) branch names before any `git` invocation; resolve the branch
to a worktree path via the listing; remove the worktree (with `--force`
when forced); delete the branch (`-D` when forced, `-d` otherwise); and
on a deletion failure issue exactly one `git worktree add <path>
<branch>` restoration attempt, reporting a fatal inconsistency when that
also fails. -/
def RemoveWorktreeAndBranch (env : Env) (branchName : String) (force : Bool) :
    RemoveResult :=
  if branchName = "" then ⟨[], RemoveOutcome.usageEmpty⟩
  else if branchName = "main" ∨ branchName = "master" then
    ⟨[], RemoveOutcome.usageProtected branchName⟩
  else
    match env.vcs ["worktree", "list", "--porcelain"] with
    | Except.error e =>
        ⟨[["worktree", "list", "--porcelain"]],
          RemoveOutcome.findError ("failed to list worktrees: " ++ e)⟩
    | Except.ok output =>
        let worktreePath := findPathInListing branchName output
        if worktreePath = "" then
          ⟨[["worktree", "list", "--porcelain"]], RemoveOutcome.notFound⟩
        else
          let removeArgs :=
            ["worktree", "remove"] ++ (if force then ["--force"] else []) ++ [worktreePath]
          match env.vcs removeArgs with
          | Except.error e =>
              ⟨[["worktree", "list", "--porcelain"], removeArgs],
                RemoveOutcome.removeError e⟩
          | Except.ok _ =>
              let deleteArgs := ["branch", if force then "-D" else "-d", branchName]
              match env.vcs deleteArgs with
              | Except.ok _ =>
                  ⟨[["worktree", "list", "--porcelain"], removeArgs, deleteArgs],
                    RemoveOutcome.success⟩
              | Except.error e =>
                  let recreateArgs := ["worktree", "add", worktreePath, branchName]
                  match env.vcs recreateArgs with
                  | Except.error e2 =>
                      ⟨[["worktree", "list", "--porcelain"], removeArgs, deleteArgs,
                          recreateArgs],
                        RemoveOutcome.fatalInconsistency e e2⟩
                  | Except.ok _ =>
                      ⟨[["worktree", "list", "--porcelain"], removeArgs, deleteArgs,
                          recreateArgs],
                        RemoveOutcome.deleteErrorRestored e⟩

/-- A `git worktree add` invocation. -/
def isAddCall (c : List String) : Bool :=
  c.take 2 == ["worktree", "add"]

/-- A `git rev-parse --verify` branch-existence check. -/
def isVerifyCall (c : List String) : Bool :=
  c.take 2 == ["rev-parse", "--verify"]

/-- A `git` argument list that mutates repository state: `worktree add`,
`worktree remove`, or any `branch` subcommand (the program only ever
invokes `branch` to delete). -/
def isMutatingCall (c : List String) : Bool :=
  isAddCall c || c.take 2 == ["worktree", "remove"] || c.take 1 == ["branch"]

/-- The worktree path `CreateWorktreeAndBranch` constructs from the
trimmed repository root and the branch name:
`<parent>/<base>.wt/<sanitized-branch>`. -/
def createTargetPath (rootOut branchName : String) : String :=
  pathJoin (pathJoin (pathDir (strTrim rootOut)) (pathBase (strTrim rootOut) ++ ".wt"))
    (sanitizeBranch branchName)

/-- The block decomposition both Go parsing loops traverse: the
`(path, parsed branch)` pairs of the blocks that carry a `worktree ` line,
with the parsed branch `""` for blocks that carry no `branch ` line.
Auxiliary view used to state lookup properties; it threads the same
`currentPath`/`currentBranch` state as `findAux`. -/
def parseEntriesAux : List String → String → String → List (String × String)
  | [], cp, cb => if cp ≠ "" then [(cp, cb)] else []
  | l :: rest, cp, cb =>
    let line := strTrim l
    if line = "" then
      (if cp ≠ "" then [(cp, cb)] else []) ++ parseEntriesAux rest "" ""
    else if strHasPrefix line "worktree " then
      parseEntriesAux rest (String.mk (line.data.drop 9)) cb
    else if strHasPrefix line "branch " then
      parseEntriesAux rest cp (stripRefsHeads (String.mk (line.data.drop 7)))
    else
      parseEntriesAux rest cp cb

/-- The `(path, parsed branch)` block entries of a porcelain listing. -/
def parseListingEntries (output : String) : List (String × String) :=
  parseEntriesAux (splitLines output) "" ""

/-- Concrete environment for the C5 counterexample: the state file
already stores the current working directory. -/
def saveTwiceEnv : Env :=
  ⟨fun args => if args = ["rev-parse", "--git-common-dir"]
      then Except.ok "/repo/.git" else Except.error "unexpected call",
    Except.ok "/repo/wt", some "/repo/wt", fun s => Except.ok s⟩

/-- A two-worktree porcelain listing used as concrete test input. -/
def wVcsListing : String :=
  "worktree /repo\nbranch refs/heads/main\n\nworktree /repo.wt/feat\nbranch refs/heads/feat\n\n"

/-- A VCS oracle that only answers the shared-metadata-directory query. -/
def commonDirVcs : List String → Except String String := fun args =>
  if args = ["rev-parse", "--git-common-dir"] then Except.ok "/repo/.git"
  else Except.error "unexpected call"

/-- `filepath.Abs` behaviour for already absolute paths. -/
def idAbs : String → Except String String := fun s => Except.ok s

/-- Concrete environment in which removing worktree `feat` succeeds but
deleting its branch fails, and the restoration attempt also fails. -/
def removeEnv : Env :=
  ⟨fun args =>
      if args = ["worktree", "list", "--porcelain"] then Except.ok wVcsListing
      else if args = ["worktree", "remove", "/repo.wt/feat"] then Except.ok ""
      else if args = ["branch", "-d", "feat"] then Except.error "not merged"
      else if args = ["worktree", "add", "/repo.wt/feat", "feat"] then
        Except.error "path exists"
      else Except.error "unexpected call",
    Except.ok "/repo", none, fun s => Except.ok s⟩

/-- Concrete environment in which branch `newb` has no worktree and no
ref, so creation takes the `-b` variant. -/
def createNewEnv : Env :=
  ⟨fun args =>
      if args = ["worktree", "list", "--porcelain"] then Except.ok wVcsListing
      else if args = ["rev-parse", "--git-common-dir"] then Except.ok "/repo/.git"
      else if args = ["rev-parse", "--show-toplevel"] then Except.ok "/repo\n"
      else if args = ["rev-parse", "--verify", "--quiet", "refs/heads/newb"] then
        Except.error "no such ref"
      else if args = ["worktree", "add", "-b", "newb", "/repo.wt/newb"] then Except.ok ""
      else Except.error "unexpected call",
    Except.ok "/repo", none, fun s => Except.ok s⟩

/-- Concrete environment in which branch `feat` already has a worktree. -/
def createExistingEnv : Env :=
  ⟨fun args =>
      if args = ["worktree", "list", "--porcelain"] then Except.ok wVcsListing
      else if args = ["rev-parse", "--git-common-dir"] then Except.ok "/repo/.git"
      else Except.error "unexpected call",
    Except.ok "/repo", none, fun s => Except.ok s⟩

theorem findAux_append_blank (b : String) :
    ∀ (lines : List String) (cp cb : String),
      findAux b (lines ++ [""]) cp cb = findAux b lines cp cb := by
  intro lines
  induction lines with
  | nil =>
      intro cp cb
      show findAux b [""] cp cb = findAux b [] cp cb
      simp [findAux, strTrim]
  | cons l rest ih =>
      intro cp cb
      simp only [List.cons_append, findAux]
      by_cases h1 : strTrim l = ""
      · simp only [h1, if_pos rfl]
        by_cases h2 : cp ≠ "" ∧ cb = b
        · simp [h2]
        · simp [h2, ih]
      · simp only [if_neg h1]
        by_cases h2 : strHasPrefix (strTrim l) "worktree " = true
        · simp [h2, ih]
        · by_cases h3 : strHasPrefix (strTrim l) "branch " = true
          · simp [h2, h3, ih]
          · simp [h2, h3, ih]

theorem listBranchesAux_append_blank :
    ∀ (lines acc : List String),
      listBranchesAux (lines ++ [""]) acc = listBranchesAux lines acc := by
  intro lines
  induction lines with
  | nil =>
      intro acc
      show listBranchesAux [""] acc = listBranchesAux [] acc
      simp [listBranchesAux, strTrim, strHasPrefix]
  | cons l rest ih =>
      intro acc
      simp only [List.cons_append, listBranchesAux]
      split
      · split
        · exact ih _
        · exact ih _
      · exact ih _

theorem listBranchesAux_nodup :
    ∀ (lines acc : List String), acc.Nodup → (listBranchesAux lines acc).Nodup := by
  intro lines
  induction lines with
  | nil => intro acc h; simpa [listBranchesAux] using h
  | cons l rest ih =>
      intro acc h
      simp only [listBranchesAux]
      split
      · split
        · rename_i hcond
          exact ih _ (h.append (List.nodup_singleton _)
            (by simpa [List.disjoint_singleton] using hcond.2))
        · exact ih _ h
      · exact ih _ h

/-- C6.  Protected-branch guard: for every environment and every force
flag, removing `main` or `master` fails with the protected-branch usage
error and issues zero `git` invocations, and an empty branch name is
rejected with the empty-name usage error before any `git` invocation. -/
theorem remove_guards_issue_no_vcs_calls :
    ∀ (env : Env) (force : Bool),
      (RemoveWorktreeAndBranch env "main" force).outcome
          = RemoveOutcome.usageProtected "main" ∧
      (RemoveWorktreeAndBranch env "main" force).trace = [] ∧
      (RemoveWorktreeAndBranch env "master" force).outcome
          = RemoveOutcome.usageProtected "master" ∧
      (RemoveWorktreeAndBranch env "master" force).trace = [] ∧
      (RemoveWorktreeAndBranch env "" force).outcome = RemoveOutcome.usageEmpty ∧
      (RemoveWorktreeAndBranch env "" force).trace = [] := by
  intro env force
  refine ⟨?_, ?_, ?_, ?_, ?_, ?_⟩ <;> rfl

/-- C7.  Listing parser: appending the missing blank-line terminator to
the line sequence changes neither lookup nor enumeration (the final
record is flushed at end-of-input); enumeration never repeats a branch
name; and on a concrete listing whose two records share the branch
`feat` and whose final record lacks a terminator, enumeration yields
`feat` exactly once, lookup is keyed to the first occurrence `/p1`, and
on the specification's scenario listing the enumeration order is the
order branches first appear. -/
theorem listing_parser_flush_and_dedup :
    (∀ (b : String) (lines : List String) (cp cb : String),
        findAux b (lines ++ [""]) cp cb = findAux b lines cp cb) ∧
    (∀ (lines acc : List String),
        listBranchesAux (lines ++ [""]) acc = listBranchesAux lines acc) ∧
    (∀ output : String, (listWorktreeBranches output).Nodup) ∧
    findPathInListing "feat"
        "worktree /p1\nbranch refs/heads/feat\n\nworktree /p2\nbranch refs/heads/feat"
      = "/p1" ∧
    listWorktreeBranches
        "worktree /p1\nbranch refs/heads/feat\n\nworktree /p2\nbranch refs/heads/feat"
      = ["feat"] ∧
    listWorktreeBranches
        "worktree /repo\nbranch refs/heads/main\n\nworktree /repo.wt/feat\nbranch refs/heads/feat\n\n"
      = ["main", "feat"] := by
  refine ⟨findAux_append_blank, listBranchesAux_append_blank,
    fun output => listBranchesAux_nodup _ _ List.nodup_nil, by decide, by decide, by decide⟩

theorem strData_append (a b : String) : (a ++ b).data = a.data ++ b.data := by
  cases a; cases b; rfl

theorem listIsInfix_eq_true_iff (n : List Char) :
    ∀ h : List Char, listIsInfix n h = true ↔ n <:+: h := by
  intro h
  induction h with
  | nil =>
      show List.isPrefixOf n [] = true ↔ _
      rw [List.isPrefixOf_iff_prefix]
      exact ⟨fun hp => hp.isInfix, fun hi => (List.infix_nil.mp hi) ▸ List.prefix_refl []⟩
  | cons c t ih =>
      show (List.isPrefixOf n (c :: t) || listIsInfix n t) = true ↔ _
      rw [Bool.or_eq_true, List.isPrefixOf_iff_prefix, ih, List.infix_cons_iff]

theorem findAux_eq_entries (b : String) :
    ∀ (lines : List String) (cp cb : String),
      findAux b lines cp cb =
        (((parseEntriesAux lines cp cb).find? fun e => e.2 == b).map Prod.fst).getD "" := by
  intro lines
  induction lines with
  | nil =>
      intro cp cb
      simp only [findAux, parseEntriesAux]
      by_cases h1 : cp ≠ ""
      · by_cases h2 : cb = b
        · simp [h1, h2, List.find?]
        · simp [h1, h2, List.find?, beq_eq_false_iff_ne.mpr h2]
      · simp [h1]
  | cons l rest ih =>
      intro cp cb
      simp only [findAux, parseEntriesAux]
      split
      · by_cases h1 : cp ≠ ""
        · by_cases h2 : cb = b
          · simp [h1, h2, List.find?]
          · simp [h1, h2, List.find?, beq_eq_false_iff_ne.mpr h2, ih]
        · simp [h1, ih]
      · split
        · exact ih _ _
        · split
          · exact ih _ _
          · exact ih _ _

/-- C8 counterexample.  With the empty branch name, the lookup returns
the path of a block that carries no `branch ` line: on the listing whose
single block is the detached worktree `/detached`, the block entries are
`[("/detached", "")]` (no branch line parsed), yet the lookup for `""`
returns `/detached` instead of skipping the block, refuting the claim
for every branch name. -/
theorem find_returns_detached_for_empty_branch :
    findPathInListing "" "worktree /detached\n\n" = "/detached" ∧
    parseListingEntries "worktree /detached\n\n" = [("/detached", "")] := by
  exact ⟨by decide, by decide⟩

/-- C8 amended.  For every listing and every nonempty branch name `b`,
the lookup returns either `""` or the path of a block whose parsed
branch is `b` — never the path of a block carrying no branch line, since
such blocks parse to branch `""` ≠ `b` — and when no block's parsed
branch equals `b` the lookup returns `""` rather than an error. -/
theorem find_skips_detached_blocks (output b : String) (hb : b ≠ "") :
    (findPathInListing b output = "" ∨
      ∃ e ∈ parseListingEntries output,
        e.2 = b ∧ e.2 ≠ "" ∧ e.1 = findPathInListing b output) ∧
    ((∀ e ∈ parseListingEntries output, e.2 ≠ b) →
      findPathInListing b output = "") := by
  constructor
  · rw [findPathInListing, findAux_eq_entries]
    cases hf : (parseEntriesAux (splitLines output) "" "").find? fun e => e.2 == b with
    | none => exact Or.inl rfl
    | some e =>
        have hp := List.find?_some hf
        simp only [beq_iff_eq] at hp
        refine Or.inr ⟨e, List.mem_of_find?_eq_some hf, hp, ?_, rfl⟩
        rw [hp]; exact hb
  · intro hnone
    rw [findPathInListing, findAux_eq_entries]
    rw [List.find?_eq_none.mpr fun e he => by simpa using hnone e he]
    rfl

/-- C9 counterexample.  At a concrete failing invocation with nonempty
captured standard output, the surfaced error message carries the joined
argument list and the captured standard-error text but not the
standard-output text, hence not standard output and standard error
combined into a single blob: the claim's description of the error payload
is false. -/
theorem gitExec_error_not_combined_blob :
    gitExec ["status"] ⟨"OUT", "bad", some "exit status 1"⟩
      = Except.error "git command failed: status bad: exit status 1" ∧
    strContains "git command failed: status bad: exit status 1" "bad" = true ∧
    strContains "git command failed: status bad: exit status 1" ("OUT" ++ "bad") = false ∧
    strContains "git command failed: status bad: exit status 1" "OUT" = false := by
  refine ⟨rfl, by decide, by decide, by decide⟩

/-- C9 amended.  The gateway returns the captured standard output alone
on success; on a non-zero exit it surfaces an error whose message carries
the joined argument list and the captured standard-error text (standard
output is discarded, not combined into the error blob). -/
theorem gitExec_success_output_error_carries_args_and_stderr
    (args : List String) (stdout stderr em : String) :
    gitExec args ⟨stdout, stderr, none⟩ = Except.ok stdout ∧
    ∃ msg, gitExec args ⟨stdout, stderr, some em⟩ = Except.error msg ∧
      strContains msg (joinArgs args) = true ∧
      strContains msg stderr = true := by
  refine ⟨rfl, "git command failed: " ++ joinArgs args ++ " " ++ stderr ++ ": " ++ em,
    rfl, ?_, ?_⟩
  · rw [strContains, listIsInfix_eq_true_iff]
    simp only [strData_append]
    exact ⟨"git command failed: ".data,
      " ".data ++ stderr.data ++ ": ".data ++ em.data, by simp [List.append_assoc]⟩
  · rw [strContains, listIsInfix_eq_true_iff]
    simp only [strData_append]
    exact ⟨"git command failed: ".data ++ (joinArgs args).data ++ " ".data,
      ": ".data ++ em.data, by simp [List.append_assoc]⟩

/-- C4.  Toggle symmetry: with `A` stored and the process in directory
`B`, `SwitchToPreviousWorktree` returns `A` and leaves `B` stored; a
second invocation from directory `A` on the resulting state returns `B`
and stores `A` again — two successive toggles return to the original
location. -/
theorem toggle_symmetry (vcs : List String → Except String String)
    (abs : String → Except String String) (A B d : String)
    (hd : vcs ["rev-parse", "--git-common-dir"] = Except.ok d)
    (hAt : strTrim A = A) (hBt : strTrim B = B)
    (hA : A ≠ "") (hB : B ≠ "") (hAB : A ≠ B) :
    (SwitchToPreviousWorktree ⟨vcs, Except.ok B, some A, abs⟩).result = Except.ok A ∧
    (SwitchToPreviousWorktree ⟨vcs, Except.ok B, some A, abs⟩).newState = some B ∧
    (SwitchToPreviousWorktree ⟨vcs, Except.ok A,
        (SwitchToPreviousWorktree ⟨vcs, Except.ok B, some A, abs⟩).newState, abs⟩).result
      = Except.ok B ∧
    (SwitchToPreviousWorktree ⟨vcs, Except.ok A,
        (SwitchToPreviousWorktree ⟨vcs, Except.ok B, some A, abs⟩).newState, abs⟩).newState
      = some A := by
  have h1 : SwitchToPreviousWorktree ⟨vcs, Except.ok B, some A, abs⟩
      = ⟨[["rev-parse", "--git-common-dir"], ["rev-parse", "--git-common-dir"]],
          Except.ok A, some B⟩ := by
    simp [SwitchToPreviousWorktree, saveCurrentWorktreeState, hd, hAt, hA, hAB]
  have h2 : SwitchToPreviousWorktree ⟨vcs, Except.ok A, some B, abs⟩
      = ⟨[["rev-parse", "--git-common-dir"], ["rev-parse", "--git-common-dir"]],
          Except.ok B, some A⟩ := by
    simp [SwitchToPreviousWorktree, saveCurrentWorktreeState, hd, hBt, hB,
      Ne.symm hAB]
  rw [h1]
  exact ⟨rfl, rfl, by rw [h2], by rw [h2]⟩

/-- C5 counterexample.  When the stored value already equals the current
directory, two successive saves perform zero writes, not exactly one:
the claim fails for that prior state. -/
theorem save_twice_zero_writes_when_stored_equal :
    ¬ ((if (saveCurrentWorktreeState saveTwiceEnv).wrote then 1 else 0) +
        (if (saveCurrentWorktreeState
            ⟨saveTwiceEnv.vcs, saveTwiceEnv.getwd,
              (saveCurrentWorktreeState saveTwiceEnv).newState,
              saveTwiceEnv.abs⟩).wrote
          then 1 else 0) = (1 : Nat)) := by
  decide

/-- C5 amended.  Two successive saves of the same current directory `p`
perform at most one write: the second save never writes, and the first
writes exactly when the state file is absent or its stored value
(trimmed) differs from `p`; when the stored value already equals `p`
both saves skip the write and the file contents are untouched. -/
theorem save_twice_at_most_one_write (vcs : List String → Except String String)
    (abs : String → Except String String) (p d : String) (st : Option String)
    (hd : vcs ["rev-parse", "--git-common-dir"] = Except.ok d)
    (hpt : strTrim p = p) :
    (saveCurrentWorktreeState ⟨vcs, Except.ok p,
        (saveCurrentWorktreeState ⟨vcs, Except.ok p, st, abs⟩).newState, abs⟩).wrote
      = false ∧
    (st = none →
      (saveCurrentWorktreeState ⟨vcs, Except.ok p, st, abs⟩).wrote = true ∧
      (saveCurrentWorktreeState ⟨vcs, Except.ok p, st, abs⟩).newState = some p) ∧
    (∀ c, st = some c → strTrim c ≠ p →
      (saveCurrentWorktreeState ⟨vcs, Except.ok p, st, abs⟩).wrote = true ∧
      (saveCurrentWorktreeState ⟨vcs, Except.ok p, st, abs⟩).newState = some p) ∧
    (∀ c, st = some c → strTrim c = p →
      (saveCurrentWorktreeState ⟨vcs, Except.ok p, st, abs⟩).wrote = false ∧
      (saveCurrentWorktreeState ⟨vcs, Except.ok p, st, abs⟩).newState = some c) := by
  refine ⟨?_, ?_, ?_, ?_⟩
  · cases st with
    | none =>
        simp [saveCurrentWorktreeState, hd, hpt]
    | some c =>
        by_cases hc : strTrim c = p
        · simp [saveCurrentWorktreeState, hd, hc, hpt]
        · simp [saveCurrentWorktreeState, hd, hc, hpt]
  · rintro rfl
    simp [saveCurrentWorktreeState, hd]
  · rintro c rfl hc
    simp [saveCurrentWorktreeState, hd, hc]
  · rintro c rfl hc
    simp [saveCurrentWorktreeState, hd, hc]

/-- C10.  The toggle reads the stored path before saving: whatever the
current directory is, the returned path is the value stored at call
time; and when the current directory equals the stored path, the call
still succeeds, returns that path, and leaves the state file's contents
unchanged. -/
theorem switch_returns_stored_value_at_call_time
    (vcs : List String → Except String String)
    (abs : String → Except String String) (c p d : String)
    (hd : vcs ["rev-parse", "--git-common-dir"] = Except.ok d)
    (hct : strTrim c = p) (hp : p ≠ "") :
    (∀ wd : String,
      (SwitchToPreviousWorktree ⟨vcs, Except.ok wd, some c, abs⟩).result = Except.ok p) ∧
    (SwitchToPreviousWorktree ⟨vcs, Except.ok p, some c, abs⟩).result = Except.ok p ∧
    (SwitchToPreviousWorktree ⟨vcs, Except.ok p, some c, abs⟩).newState = some c := by
  refine ⟨fun wd => ?_, ?_, ?_⟩
  · simp [SwitchToPreviousWorktree, saveCurrentWorktreeState, hd, hct, hp]
  · simp [SwitchToPreviousWorktree, saveCurrentWorktreeState, hd, hct, hp]
  · simp [SwitchToPreviousWorktree, saveCurrentWorktreeState, hd, hct, hp]

theorem saveCurrentWorktreeState_trace (env : Env) :
    (saveCurrentWorktreeState env).trace = [["rev-parse", "--git-common-dir"]] := by
  unfold saveCurrentWorktreeState
  cases env.vcs ["rev-parse", "--git-common-dir"] with
  | error e => rfl
  | ok d =>
      cases env.getwd with
      | error e => rfl
      | ok wd =>
          cases env.stateFile with
          | none => rfl
          | some c =>
              dsimp only
              split <;> rfl

/-- C1.  When the worktree removal succeeds and the branch deletion
fails, the controller issues exactly one `git worktree add` recreation
call, with the same path and branch just removed; if that recreation
itself fails the outcome is the fatal-inconsistency report, a
constructor distinct from the ordinary VCS-error outcomes, and if the
recreation succeeds the original deletion error is surfaced. -/
theorem remove_rollback_single_recreate (env : Env) (b : String) (force : Bool)
    (listing p out1 e : String)
    (hb : b ≠ "") (hmain : b ≠ "main") (hmaster : b ≠ "master")
    (hlist : env.vcs ["worktree", "list", "--porcelain"] = Except.ok listing)
    (hfind : findPathInListing b listing = p) (hp : p ≠ "")
    (hremove : env.vcs (["worktree", "remove"]
        ++ (if force then ["--force"] else []) ++ [p]) = Except.ok out1)
    (hdelete : env.vcs ["branch", if force then "-D" else "-d", b] = Except.error e) :
    ((RemoveWorktreeAndBranch env b force).trace.countP isAddCall = 1) ∧
    (["worktree", "add", p, b] ∈ (RemoveWorktreeAndBranch env b force).trace) ∧
    (∀ e2, env.vcs ["worktree", "add", p, b] = Except.error e2 →
      (RemoveWorktreeAndBranch env b force).outcome
          = RemoveOutcome.fatalInconsistency e e2 ∧
      (∀ e3, (RemoveWorktreeAndBranch env b force).outcome
          ≠ RemoveOutcome.removeError e3 ∧
        (RemoveWorktreeAndBranch env b force).outcome
          ≠ RemoveOutcome.deleteErrorRestored e3)) ∧
    (∀ out2, env.vcs ["worktree", "add", p, b] = Except.ok out2 →
      (RemoveWorktreeAndBranch env b force).outcome
        = RemoveOutcome.deleteErrorRestored e) := by
  simp only [List.cons_append, List.nil_append, List.append_assoc] at hremove
  cases hr : env.vcs ["worktree", "add", p, b] with
  | error e2 =>
      have hR : RemoveWorktreeAndBranch env b force =
          ⟨[["worktree", "list", "--porcelain"],
            ["worktree", "remove"] ++ (if force then ["--force"] else []) ++ [p],
            ["branch", if force then "-D" else "-d", b],
            ["worktree", "add", p, b]],
            RemoveOutcome.fatalInconsistency e e2⟩ := by
        simp [RemoveWorktreeAndBranch, hb, hmain, hmaster, hlist, hfind, hp,
          hremove, hdelete, hr]
      rw [hR]
      refine ⟨?_, ?_, ?_, ?_⟩
      · cases force <;> rfl
      · simp
      · intro e2x hx
        cases hx
        exact ⟨rfl, fun e3 => ⟨by simp, by simp⟩⟩
      · intro out2 hx
        cases hx
  | ok out2 =>
      have hR : RemoveWorktreeAndBranch env b force =
          ⟨[["worktree", "list", "--porcelain"],
            ["worktree", "remove"] ++ (if force then ["--force"] else []) ++ [p],
            ["branch", if force then "-D" else "-d", b],
            ["worktree", "add", p, b]],
            RemoveOutcome.deleteErrorRestored e⟩ := by
        simp [RemoveWorktreeAndBranch, hb, hmain, hmaster, hlist, hfind, hp,
          hremove, hdelete, hr]
      rw [hR]
      refine ⟨?_, ?_, ?_, ?_⟩
      · cases force <;> rfl
      · simp
      · intro e2x hx
        cases hx
      · intro out2x hx
        rfl

/-- C2.  For a branch absent from the listing, `CreateWorktreeAndBranch`
issues exactly one branch-existence check and exactly one `git worktree
add`, and every add call in the trace is the create-branch variant
(`-b`) precisely when the existence check reported the ref absent, and
the plain variant when it reported it present. -/
theorem create_absent_branch_one_check_one_add (env : Env) (b listing rootOut : String)
    (hb : b ≠ "")
    (hlist : env.vcs ["worktree", "list", "--porcelain"] = Except.ok listing)
    (hfind : findPathInListing b listing = "")
    (hroot : env.vcs ["rev-parse", "--show-toplevel"] = Except.ok rootOut) :
    ((CreateWorktreeAndBranch env b).trace.countP isVerifyCall = 1) ∧
    ((CreateWorktreeAndBranch env b).trace.countP isAddCall = 1) ∧
    (["rev-parse", "--verify", "--quiet", "refs/heads/" ++ b]
        ∈ (CreateWorktreeAndBranch env b).trace) ∧
    (∀ vOut, env.vcs ["rev-parse", "--verify", "--quiet", "refs/heads/" ++ b]
        = Except.ok vOut →
      ∀ c ∈ (CreateWorktreeAndBranch env b).trace, isAddCall c = true →
        c = ["worktree", "add", createTargetPath rootOut b, b]) ∧
    (∀ vErr, env.vcs ["rev-parse", "--verify", "--quiet", "refs/heads/" ++ b]
        = Except.error vErr →
      ∀ c ∈ (CreateWorktreeAndBranch env b).trace, isAddCall c = true →
        c = ["worktree", "add", "-b", b, createTargetPath rootOut b]) := by
  have hsave := saveCurrentWorktreeState_trace env
  cases hv : env.vcs ["rev-parse", "--verify", "--quiet", "refs/heads/" ++ b] with
  | ok vOut =>
      have hR : (CreateWorktreeAndBranch env b).trace =
          [["worktree", "list", "--porcelain"], ["rev-parse", "--git-common-dir"],
            ["rev-parse", "--show-toplevel"],
            ["rev-parse", "--verify", "--quiet", "refs/heads/" ++ b],
            ["worktree", "add", createTargetPath rootOut b, b]] := by
        cases ha : env.vcs ["worktree", "add", createTargetPath rootOut b, b] <;>
          simp only [createTargetPath] at ha <;>
          simp [CreateWorktreeAndBranch, hb, hlist, hfind, hroot, hv, ha, hsave,
            createTargetPath]
      rw [hR]
      refine ⟨rfl, rfl, by simp, ?_, ?_⟩
      · intro vOutx hx c hc hadd
        simp only [List.mem_cons, List.not_mem_nil, or_false] at hc
        rcases hc with rfl | rfl | rfl | rfl | rfl <;>
          first
            | rfl
            | simp [isAddCall] at hadd
      · intro vErr hx
        cases hx
  | error vErr =>
      have hR : (CreateWorktreeAndBranch env b).trace =
          [["worktree", "list", "--porcelain"], ["rev-parse", "--git-common-dir"],
            ["rev-parse", "--show-toplevel"],
            ["rev-parse", "--verify", "--quiet", "refs/heads/" ++ b],
            ["worktree", "add", "-b", b, createTargetPath rootOut b]] := by
        cases ha : env.vcs ["worktree", "add", "-b", b, createTargetPath rootOut b] <;>
          simp only [createTargetPath] at ha <;>
          simp [CreateWorktreeAndBranch, hb, hlist, hfind, hroot, hv, ha, hsave,
            createTargetPath]
      rw [hR]
      refine ⟨rfl, rfl, by simp, ?_, ?_⟩
      · intro vOutx hx
        cases hx
      · intro vErrx hx c hc hadd
        simp only [List.mem_cons, List.not_mem_nil, or_false] at hc
        rcases hc with rfl | rfl | rfl | rfl | rfl <;>
          first
            | rfl
            | simp [isAddCall] at hadd

/-- C3.  For a branch already present in the listing,
`CreateWorktreeAndBranch` reports the recorded path unchanged and issues
no mutating `git` invocation (no worktree add or remove, no branch
subcommand). -/
theorem create_existing_branch_no_mutation (env : Env) (b listing p : String)
    (hb : b ≠ "")
    (hlist : env.vcs ["worktree", "list", "--porcelain"] = Except.ok listing)
    (hfind : findPathInListing b listing = p) (hp : p ≠ "") :
    (CreateWorktreeAndBranch env b).outcome = CreateOutcome.printedExisting p ∧
    (CreateWorktreeAndBranch env b).trace.countP isMutatingCall = 0 := by
  have hsave := saveCurrentWorktreeState_trace env
  constructor
  · simp [CreateWorktreeAndBranch, hb, hlist, hfind, hp]
  · simp [CreateWorktreeAndBranch, hb, hlist, hfind, hp]
    split <;> simp [hsave, isMutatingCall, isAddCall]

/-- Witness for C1 at a concrete environment: removal of `feat`
succeeds, deletion fails, restoration fails, and the fatal inconsistency
is reported after exactly one recreation call. -/
theorem remove_rollback_single_recreate_witness :
    (("feat" : String) ≠ "" ∧ ("feat" : String) ≠ "main" ∧ ("feat" : String) ≠ "master" ∧
      removeEnv.vcs ["worktree", "list", "--porcelain"] = Except.ok wVcsListing ∧
      findPathInListing "feat" wVcsListing = "/repo.wt/feat" ∧
      ("/repo.wt/feat" : String) ≠ "" ∧
      removeEnv.vcs (["worktree", "remove"]
          ++ (if false then ["--force"] else []) ++ ["/repo.wt/feat"]) = Except.ok "" ∧
      removeEnv.vcs ["branch", if false then "-D" else "-d", "feat"]
        = Except.error "not merged") ∧
    (RemoveWorktreeAndBranch removeEnv "feat" false).trace.countP isAddCall = 1 ∧
    ["worktree", "add", "/repo.wt/feat", "feat"]
        ∈ (RemoveWorktreeAndBranch removeEnv "feat" false).trace ∧
    (RemoveWorktreeAndBranch removeEnv "feat" false).outcome
      = RemoveOutcome.fatalInconsistency "not merged" "path exists" := by
  have h := remove_rollback_single_recreate removeEnv "feat" false wVcsListing
    "/repo.wt/feat" "" "not merged" (by decide) (by decide) (by decide) rfl (by decide)
    (by decide) rfl rfl
  exact ⟨⟨by decide, by decide, by decide, rfl, by decide, by decide, rfl, rfl⟩,
    h.1, h.2.1, (h.2.2.1 "path exists" rfl).1⟩

/-- Witness for C2 at a concrete environment: branch `newb` is absent
from the listing and from the refs, and creation issues one existence
check and one `-b` add call. -/
theorem create_absent_branch_one_check_one_add_witness :
    (("newb" : String) ≠ "" ∧
      createNewEnv.vcs ["worktree", "list", "--porcelain"] = Except.ok wVcsListing ∧
      findPathInListing "newb" wVcsListing = "" ∧
      createNewEnv.vcs ["rev-parse", "--show-toplevel"] = Except.ok "/repo\n") ∧
    (CreateWorktreeAndBranch createNewEnv "newb").trace.countP isVerifyCall = 1 ∧
    (CreateWorktreeAndBranch createNewEnv "newb").trace.countP isAddCall = 1 ∧
    ["rev-parse", "--verify", "--quiet", "refs/heads/" ++ "newb"]
      ∈ (CreateWorktreeAndBranch createNewEnv "newb").trace := by
  have h := create_absent_branch_one_check_one_add createNewEnv "newb" wVcsListing
    "/repo\n" (by decide) rfl (by decide) rfl
  exact ⟨⟨by decide, rfl, by decide, rfl⟩, h.1, h.2.1, h.2.2.1⟩

/-- Witness for C3 at a concrete environment: branch `feat` already has
the worktree `/repo.wt/feat`, which is reported unchanged with no
mutating call. -/
theorem create_existing_branch_no_mutation_witness :
    (("feat" : String) ≠ "" ∧
      createExistingEnv.vcs ["worktree", "list", "--porcelain"] = Except.ok wVcsListing ∧
      findPathInListing "feat" wVcsListing = "/repo.wt/feat" ∧
      ("/repo.wt/feat" : String) ≠ "") ∧
    (CreateWorktreeAndBranch createExistingEnv "feat").outcome
      = CreateOutcome.printedExisting "/repo.wt/feat" ∧
    (CreateWorktreeAndBranch createExistingEnv "feat").trace.countP isMutatingCall = 0 := by
  have h := create_existing_branch_no_mutation createExistingEnv "feat" wVcsListing
    "/repo.wt/feat" (by decide) rfl (by decide) (by decide)
  exact ⟨⟨by decide, rfl, by decide, by decide⟩, h.1, h.2⟩

/-- Witness for C4 at concrete paths: stored `/repo.wt/feat`, current
directory `/repo`. -/
theorem toggle_symmetry_witness :
    (commonDirVcs ["rev-parse", "--git-common-dir"] = Except.ok "/repo/.git" ∧
      strTrim "/repo.wt/feat" = "/repo.wt/feat" ∧ strTrim "/repo" = "/repo" ∧
      ("/repo.wt/feat" : String) ≠ "" ∧ ("/repo" : String) ≠ "" ∧
      ("/repo.wt/feat" : String) ≠ "/repo") ∧
    (SwitchToPreviousWorktree
        ⟨commonDirVcs, Except.ok "/repo", some "/repo.wt/feat", idAbs⟩).result
      = Except.ok "/repo.wt/feat" ∧
    (SwitchToPreviousWorktree
        ⟨commonDirVcs, Except.ok "/repo", some "/repo.wt/feat", idAbs⟩).newState
      = some "/repo" ∧
    (SwitchToPreviousWorktree ⟨commonDirVcs, Except.ok "/repo.wt/feat",
        (SwitchToPreviousWorktree
          ⟨commonDirVcs, Except.ok "/repo", some "/repo.wt/feat", idAbs⟩).newState,
        idAbs⟩).result
      = Except.ok "/repo" := by
  have h := toggle_symmetry commonDirVcs idAbs "/repo.wt/feat" "/repo" "/repo/.git" rfl
    (by decide) (by decide) (by decide) (by decide) (by decide)
  exact ⟨⟨rfl, by decide, by decide, by decide, by decide, by decide⟩,
    h.1, h.2.1, h.2.2.1⟩

/-- Witness for the amended C5 at a concrete environment: no state file
initially, saving `/w` twice writes exactly once. -/
theorem save_twice_at_most_one_write_witness :
    (commonDirVcs ["rev-parse", "--git-common-dir"] = Except.ok "/repo/.git" ∧
      strTrim "/w" = "/w") ∧
    (saveCurrentWorktreeState ⟨commonDirVcs, Except.ok "/w",
        (saveCurrentWorktreeState ⟨commonDirVcs, Except.ok "/w", none, idAbs⟩).newState,
        idAbs⟩).wrote = false ∧
    (saveCurrentWorktreeState ⟨commonDirVcs, Except.ok "/w", none, idAbs⟩).wrote = true ∧
    (saveCurrentWorktreeState ⟨commonDirVcs, Except.ok "/w", none, idAbs⟩).newState
      = some "/w" := by
  have h := save_twice_at_most_one_write commonDirVcs idAbs "/w" "/repo/.git" none rfl
    (by decide)
  exact ⟨⟨rfl, by decide⟩, h.1, (h.2.1 rfl).1, (h.2.1 rfl).2⟩

/-- Witness for the amended C8 at a concrete listing and nonempty branch
name. -/
theorem find_skips_detached_blocks_witness :
    (("feat" : String) ≠ "") ∧
    ((findPathInListing "feat" wVcsListing = "" ∨
        ∃ e ∈ parseListingEntries wVcsListing,
          e.2 = "feat" ∧ e.2 ≠ "" ∧ e.1 = findPathInListing "feat" wVcsListing) ∧
      ((∀ e ∈ parseListingEntries wVcsListing, e.2 ≠ "feat") →
        findPathInListing "feat" wVcsListing = "")) :=
  ⟨by decide, find_skips_detached_blocks wVcsListing "feat" (by decide)⟩

/-- Witness for C10 at a concrete stored path `/repo`. -/
theorem switch_returns_stored_value_at_call_time_witness :
    (commonDirVcs ["rev-parse", "--git-common-dir"] = Except.ok "/repo/.git" ∧
      strTrim "/repo" = "/repo" ∧ ("/repo" : String) ≠ "") ∧
    (SwitchToPreviousWorktree
        ⟨commonDirVcs, Except.ok "/elsewhere", some "/repo", idAbs⟩).result
      = Except.ok "/repo" ∧
    (SwitchToPreviousWorktree ⟨commonDirVcs, Except.ok "/repo", some "/repo", idAbs⟩).result
      = Except.ok "/repo" ∧
    (SwitchToPreviousWorktree ⟨commonDirVcs, Except.ok "/repo", some "/repo", idAbs⟩).newState
      = some "/repo" := by
  have h := switch_returns_stored_value_at_call_time commonDirVcs idAbs "/repo" "/repo"
    "/repo/.git" rfl (by decide) (by decide)
  exact ⟨⟨rfl, by decide, by decide⟩, h.1 "/elsewhere", h.2.1, h.2.2⟩

end WtGo
